import Mathlib

/-!
Shallow embedding of `src/3. Tracker/visualize.py` (TrackTrack repository).

The script `visualize_tracking_results` loads a MOT-style tracking log,
assigns a random color per track id, sorts the `.jpg` images of a directory
by the integer value of their filename stem, draws bounding boxes and id
labels on each frame, writes the frames to a video file, and finally checks
the output file.  External libraries (pandas, cv2, numpy, the filesystem)
are modelled through an explicit environment; drawing calls are recorded as
inert draw commands.
-/

namespace TrackTrack

/-- One row of the tracking log, columns
`frame, id, bb_left, bb_top, bb_width, bb_height, conf, x, y, z`
(visualize.py line 23). The last four columns are carried but unused. -/
structure TrackRecord where
  frame : Int
  id : Int
  bb_left : Int
  bb_top : Int
  bb_width : Int
  bb_height : Int
  conf : ℚ
  x : ℚ
  y : ℚ
  z : ℚ
deriving DecidableEq, Repr

/-- A color triple as produced at visualize.py line 35 (numpy ints). -/
abbrev Color := Int × Int × Int

/-- A decoded bitmap as returned by `cv2.imread`: we keep its shape and an
abstract content tag. -/
structure Image where
  width : Nat
  height : Nat
  tag : Nat
deriving DecidableEq, Repr

/-- `np.random.randint(lo, hi)` draws uniformly from `[lo, hi)` — the upper
bound is exclusive.  We model one draw from an arbitrary entropy value `r`:
the result is `lo + r % (hi - lo)`, which realises exactly the half-open
range when `lo < hi`. -/
def npRandint (lo hi : Int) (r : Nat) : Int :=
  lo + (r : Int) % (hi - lo)

/-- `df['id'].unique()` (visualize.py line 34): distinct values in first
occurrence order. -/
def uniqueAux : List Int → List Int → List Int
  | [], _ => []
  | x :: xs, seen => if x ∈ seen then uniqueAux xs seen else x :: uniqueAux xs (x :: seen)

/-- The distinct ids of the loaded records, first occurrence order. -/
def uniqueIds (df : List TrackRecord) : List Int :=
  uniqueAux (df.map (·.id)) []

/-- The dict comprehension of visualize.py line 35: each id consumes three
consecutive draws from the process-wide random stream `rng`. -/
def buildColorsAux (rng : Nat → Nat) : Nat → List Int → List (Int × Color)
  | _, [] => []
  | i, tid :: tids =>
      (tid, (npRandint 0 255 (rng i), npRandint 0 255 (rng (i + 1)),
             npRandint 0 255 (rng (i + 2)))) :: buildColorsAux rng (i + 3) tids

/-- `colors = {int(tid): (...random color...) for tid in unique_ids}`
(visualize.py lines 34–35). -/
def buildColors (rng : Nat → Nat) (df : List TrackRecord) : List (Int × Color) :=
  buildColorsAux rng 0 (uniqueIds df)

/-- `colors.get(track_id, (0, 255, 0))` (visualize.py line 85): table lookup
with the fixed green fallback. -/
def colorsGet (tbl : List (Int × Color)) (tid : Int) : Color :=
  match tbl.lookup tid with
  | some c => c
  | none => (0, 255, 0)

/-- Python's `str.endswith`: suffix test on the character sequence. -/
def strEndsWith (s post : String) : Bool :=
  post.toList.isSuffixOf s.toList

/-- Digit-run accumulator for `int(...)`: consumes decimal digits, fails on
anything else. -/
def parseDigits (acc : Nat) : List Char → Option Nat
  | [] => some acc
  | c :: cs => if c.isDigit then parseDigits (10 * acc + (c.toNat - 48)) cs else none

/-- Python's `int(s)` on a plain decimal string: an optional sign followed by
at least one digit; anything else raises (here: `none`). -/
def strToInt (s : String) : Option Int :=
  match s.toList with
  | [] => none
  | '-' :: [] => none
  | '+' :: [] => none
  | '-' :: c :: cs => (parseDigits 0 (c :: cs)).map (fun n => -(n : Int))
  | '+' :: c :: cs => (parseDigits 0 (c :: cs)).map (fun n => (n : Int))
  | c :: cs => (parseDigits 0 (c :: cs)).map (fun n => (n : Int))

/-- The root part of `os.path.splitext`: everything before the last dot,
provided some earlier character of the name is not a dot (Python keeps
a leading run of dots attached to the root). -/
def splitextRoot (s : String) : String :=
  let cs := s.toList
  match (cs.reverse.findIdx? (· == '.')) with
  | none => s
  | some k =>
      let i := cs.length - 1 - k
      if (cs.take i).any (· != '.') then String.mk (cs.take i) else s

/-- `int(os.path.splitext(x)[0])` (visualize.py line 42), the numeric sort
key of a filename.  Callers only rely on it for parseable stems. -/
def stemKey (f : String) : Int :=
  (strToInt (splitextRoot f)).getD 0

/-- A stable sort by key, modelling Python's `sorted(..., key=...)`
(a stable ascending sort on the key values). -/
def sortByKey (key : String → Int) (l : List String) : List String :=
  List.insertionSort (fun a b => key a ≤ key b) l

/-- `sorted([f for f in os.listdir(img_dir) if f.endswith('.jpg')],
key=lambda x: int(os.path.splitext(x)[0]))` (visualize.py lines 41–42). -/
def sortedJpgs (entries : List String) : List String :=
  sortByKey stemKey (entries.filter (fun f => strEndsWith f ".jpg"))

/-- A recorded drawing primitive (cv2.rectangle / cv2.putText call). -/
inductive DrawCmd where
  | rectangle (p1 p2 : Int × Int) (color : Color) (thickness : Nat)
  | putText (label : String) (org : Int × Int) (fontScale : ℚ)
      (color : Color) (thickness : Nat)
deriving DecidableEq, Repr

/-- The inner loop of visualize.py lines 77–90: for each record of the
current frame, draw the box outline and the `"ID: <id>"` label. -/
def drawDetections (colors : List (Int × Color)) (dets : List TrackRecord) :
    List DrawCmd :=
  dets.flatMap fun row =>
    let track_id := row.id
    let x := row.bb_left
    let y := row.bb_top
    let w := row.bb_width
    let h := row.bb_height
    let color := colorsGet colors track_id
    [DrawCmd.rectangle (x, y) (x + w, y + h) color 2,
     DrawCmd.putText ("ID: " ++ toString track_id) (x, y - 5) (7 / 10) color 2]

/-- The per-frame loop of visualize.py lines 65–93, with explicit 1-based
counter `idx` (`enumerate(img_files, 1)`): read the image, skip it when the
decode fails, otherwise filter the records with `frame == idx`, draw them
and write the annotated frame. -/
def processFramesAux (imread : String → Option Image) (df : List TrackRecord)
    (colors : List (Int × Color)) : Nat → List String → List (Image × List DrawCmd)
  | _, [] => []
  | idx, f :: fs =>
      match imread f with
      | none => processFramesAux imread df colors (idx + 1) fs
      | some frame =>
          (frame, drawDetections colors (df.filter (fun r => r.frame == (idx : Int)))) ::
            processFramesAux imread df colors (idx + 1) fs

/-- The whole rendering loop, starting at frame index 1. -/
def processFrames (imread : String → Option Image) (df : List TrackRecord)
    (colors : List (Int × Color)) (img_files : List String) :
    List (Image × List DrawCmd) :=
  processFramesAux imread df colors 1 img_files

/-- The ways `pd.read_csv` fails that visualize.py catches (lines 25–30). -/
inductive LoadErr where
  | emptyData
  | fileNotFound
deriving DecidableEq, Repr

/-- The abstract environment of a run: the parse result of the log, the
directory listing, the image decoder, and the process-wide random stream. -/
structure Env where
  readLog : Except LoadErr (List TrackRecord)
  listdir : Option (List String)
  imread : String → Option Image
  rng : Nat → Nat

/-- How a run of `visualize_tracking_results` ends. -/
inductive Outcome where
  | emptyInput
  | inputNotFound
  | dirNotFound
  | noJpgImages
  | firstImageUnreadable
  | completed
deriving DecidableEq, Repr

/-- Observable effects of one run: the final outcome, whether the
`cv2.VideoWriter` was ever constructed (which creates the output file),
the frame size passed to it, and the frames written. -/
structure RunResult where
  outcome : Outcome
  outputOpened : Bool
  frameSize : Option (Nat × Nat)
  written : List (Image × List DrawCmd)
deriving Repr

/-- The body of `visualize_tracking_results` (visualize.py lines 19–96),
over the abstract environment. -/
def visualize_tracking_results (env : Env) : RunResult :=
  match env.readLog with
  | .error .emptyData => ⟨.emptyInput, false, none, []⟩
  | .error .fileNotFound => ⟨.inputNotFound, false, none, []⟩
  | .ok df =>
    let colors := buildColors env.rng df
    match env.listdir with
    | none => ⟨.dirNotFound, false, none, []⟩
    | some entries =>
      match sortedJpgs entries with
      | [] => ⟨.noJpgImages, false, none, []⟩
      | f0 :: rest =>
        match env.imread f0 with
        | none => ⟨.firstImageUnreadable, false, none, []⟩
        | some first_frame =>
            ⟨.completed, true, some (first_frame.width, first_frame.height),
             processFrames env.imread df colors (f0 :: rest)⟩

/-- The three terminal statuses of the final file check. -/
inductive Status where
  | success
  | emptyOutput
  | missingOutput
deriving DecidableEq, Repr

/-- The file check of visualize.py lines 101–110: existence of the output
path, then its size. -/
def completionStatus (outputExists : Bool) (fileSize : Nat) : Status :=
  if outputExists then
    if fileSize > 0 then .success else .emptyOutput
  else .missingOutput

/-! ### Helper lemmas -/

theorem npRandint_nonneg (r : Nat) : 0 ≤ npRandint 0 255 r := by
  unfold npRandint
  have h := Int.emod_nonneg (r : Int) (by norm_num : (255 : Int) - 0 ≠ 0)
  omega

theorem npRandint_le (r : Nat) : npRandint 0 255 r ≤ 254 := by
  unfold npRandint
  have h := Int.emod_lt_of_pos (r : Int) (by norm_num : (0 : Int) < 255 - 0)
  omega

theorem npRandint_eq_self (v : Int) (h0 : 0 ≤ v) (h1 : v ≤ 254) :
    npRandint 0 255 v.toNat = v := by
  unfold npRandint
  rw [Int.toNat_of_nonneg h0]
  rw [Int.emod_eq_of_lt h0 (by omega)]
  omega

/-- Every element of the input survives into `uniqueAux` unless it was
already seen. -/
theorem uniqueAux_mem (x : Int) :
    ∀ (l seen : List Int), x ∈ l → x ∈ uniqueAux l seen ∨ x ∈ seen := by
  intro l
  induction l with
  | nil => intro seen h; cases h
  | cons y ys ih =>
      intro seen h
      unfold uniqueAux
      by_cases hy : y ∈ seen
      · simp only [if_pos hy]
        rcases List.mem_cons.mp h with rfl | hxs
        · exact Or.inr hy
        · exact ih seen hxs
      · simp only [if_neg hy]
        rcases List.mem_cons.mp h with rfl | hxs
        · exact Or.inl (List.mem_cons_self _ _)
        · rcases ih (y :: seen) hxs with hin | hin
          · exact Or.inl (List.mem_cons_of_mem _ hin)
          · rcases List.mem_cons.mp hin with rfl | hin2
            · exact Or.inl (List.mem_cons_self _ _)
            · exact Or.inr hin2

theorem mem_uniqueIds (df : List TrackRecord) (r : TrackRecord) (hr : r ∈ df) :
    r.id ∈ uniqueIds df := by
  have hx : r.id ∈ df.map (·.id) := List.mem_map.mpr ⟨r, hr, rfl⟩
  rcases uniqueAux_mem r.id (df.map (·.id)) [] hx with h | h
  · exact h
  · cases h

/-- Any id of the input list has a color in the table built by
`buildColorsAux`, and the assigned color is one of the entries. -/
theorem buildColorsAux_lookup (rng : Nat → Nat) (tid : Int) :
    ∀ (ids : List Int) (i : Nat), tid ∈ ids →
      ∃ c : Color, (buildColorsAux rng i ids).lookup tid = some c ∧
        (tid, c) ∈ buildColorsAux rng i ids := by
  intro ids
  induction ids with
  | nil => intro i h; cases h
  | cons y ys ih =>
      intro i h
      unfold buildColorsAux
      by_cases hy : tid = y
      · subst hy
        refine ⟨(npRandint 0 255 (rng i), npRandint 0 255 (rng (i + 1)),
          npRandint 0 255 (rng (i + 2))), ?_, List.mem_cons_self _ _⟩
        simp [List.lookup]
      · have hys : tid ∈ ys := by
          rcases List.mem_cons.mp h with rfl | hmem
          · exact absurd rfl hy
          · exact hmem
        rcases ih (i + 3) hys with ⟨c, hc, hmem⟩
        refine ⟨c, ?_, List.mem_cons_of_mem _ hmem⟩
        simp only [List.lookup]
        rw [show (tid == y) = false from beq_eq_false_iff_ne.mpr hy]
        exact hc

/-- Every channel of every color in the table is in `[0, 254]`. -/
theorem buildColorsAux_channel_bounds (rng : Nat → Nat) (tid : Int) (c : Color) :
    ∀ (ids : List Int) (i : Nat), (tid, c) ∈ buildColorsAux rng i ids →
      (0 ≤ c.1 ∧ c.1 ≤ 254) ∧ (0 ≤ c.2.1 ∧ c.2.1 ≤ 254) ∧ (0 ≤ c.2.2 ∧ c.2.2 ≤ 254) := by
  intro ids
  induction ids with
  | nil => intro i h; cases h
  | cons y ys ih =>
      intro i h
      unfold buildColorsAux at h
      rcases List.mem_cons.mp h with heq | hmem
      · have hc : c = (npRandint 0 255 (rng i), npRandint 0 255 (rng (i + 1)),
            npRandint 0 255 (rng (i + 2))) := congrArg Prod.snd heq
        subst hc
        exact ⟨⟨npRandint_nonneg _, npRandint_le _⟩, ⟨npRandint_nonneg _, npRandint_le _⟩,
          ⟨npRandint_nonneg _, npRandint_le _⟩⟩
      · exact ih (i + 3) hmem

/-- Position `j` of the file list, when its image decodes, contributes the
annotated frame for frame index `i + j` to the rendered stream. -/
theorem processFramesAux_mem (imread : String → Option Image) (df : List TrackRecord)
    (colors : List (Int × Color)) :
    ∀ (fs : List String) (i j : Nat) (file : String) (img : Image),
      fs[j]? = some file → imread file = some img →
      (img, drawDetections colors (df.filter (fun r => r.frame == ((i + j : Nat) : Int)))) ∈
        processFramesAux imread df colors i fs := by
  intro fs
  induction fs with
  | nil => intro i j file img hj; simp at hj
  | cons f0 rest ih =>
      intro i j file img hj himg
      cases j with
      | zero =>
          simp only [List.getElem?_cons_zero, Option.some.injEq] at hj
          subst hj
          unfold processFramesAux
          rw [himg]
          simp
      | succ j' =>
          simp only [List.getElem?_cons_succ] at hj
          have hrec := ih (i + 1) j' file img hj himg
          have harith : i + 1 + j' = i + (j' + 1) := by omega
          rw [harith] at hrec
          unfold processFramesAux
          cases himread0 : imread f0 with
          | none => exact hrec
          | some frame0 => exact List.mem_cons_of_mem _ hrec

/-- The images actually written are exactly the successfully decoded images,
in order: a failed decode is skipped, nothing is substituted. -/
theorem processFramesAux_map_fst (imread : String → Option Image) (df : List TrackRecord)
    (colors : List (Int × Color)) :
    ∀ (fs : List String) (i : Nat),
      (processFramesAux imread df colors i fs).map Prod.fst = fs.filterMap imread := by
  intro fs
  induction fs with
  | nil => intro i; rfl
  | cons f0 rest ih =>
      intro i
      unfold processFramesAux
      cases h0 : imread f0 with
      | none => simp [List.filterMap_cons, h0, ih (i + 1)]
      | some frame0 => simp [List.filterMap_cons, h0, ih (i + 1)]

/-- Every written frame's overlay is the rendering of the records whose
`frame` equals some frame index, against the one color table. -/
theorem processFramesAux_snd (imread : String → Option Image) (df : List TrackRecord)
    (colors : List (Int × Color)) :
    ∀ (fs : List String) (i : Nat) (e : Image × List DrawCmd),
      e ∈ processFramesAux imread df colors i fs →
      ∃ fIdx : Nat, e.2 = drawDetections colors (df.filter (fun r => r.frame == (fIdx : Int))) := by
  intro fs
  induction fs with
  | nil => intro i e h; cases h
  | cons f0 rest ih =>
      intro i e h
      unfold processFramesAux at h
      cases h0 : imread f0 with
      | none =>
          rw [h0] at h
          exact ih (i + 1) e h
      | some frame0 =>
          rw [h0] at h
          rcases List.mem_cons.mp h with rfl | hmem
          · exact ⟨i, rfl⟩
          · exact ih (i + 1) e hmem

/-- Decoded-image count plus failed-decode count equals the input count. -/
theorem filterMap_length_add_countP (imread : String → Option Image) :
    ∀ fs : List String,
      (fs.filterMap imread).length + fs.countP (fun f => (imread f).isNone) = fs.length := by
  intro fs
  induction fs with
  | nil => rfl
  | cons f0 rest ih =>
      cases h0 : imread f0 with
      | none =>
          have h1 : (f0 :: rest).filterMap imread = rest.filterMap imread := by
            simp [List.filterMap_cons, h0]
          have h2 : (f0 :: rest).countP (fun f => (imread f).isNone)
              = rest.countP (fun f => (imread f).isNone) + 1 := by
            simp [List.countP_cons, h0]
          rw [h1, h2, List.length_cons]
          omega
      | some img =>
          have h1 : (f0 :: rest).filterMap imread = img :: rest.filterMap imread := by
            simp [List.filterMap_cons, h0]
          have h2 : (f0 :: rest).countP (fun f => (imread f).isNone)
              = rest.countP (fun f => (imread f).isNone) := by
            simp [List.countP_cons, h0]
          rw [h1, h2, List.length_cons, List.length_cons]
          omega

/-- The run equation in the fully-successful configuration. -/
theorem run_completed (env : Env) (df : List TrackRecord) (entries : List String)
    (f0 : String) (rest : List String) (img0 : Image)
    (hlog : env.readLog = .ok df) (hdir : env.listdir = some entries)
    (hsort : sortedJpgs entries = f0 :: rest) (h0 : env.imread f0 = some img0) :
    visualize_tracking_results env =
      ⟨.completed, true, some (img0.width, img0.height),
        processFrames env.imread df (buildColors env.rng df) (f0 :: rest)⟩ := by
  unfold visualize_tracking_results
  rw [hlog]
  simp only []
  rw [hdir]
  simp only []
  rw [hsort]
  simp only []
  rw [h0]

/-- The run's written frames all come from one rendering pass over one color
table built from the full record set. -/
theorem run_written_shape (env : Env) (df : List TrackRecord)
    (hlog : env.readLog = .ok df) :
    ∀ e ∈ (visualize_tracking_results env).written,
      ∃ fIdx : Nat, e.2 = drawDetections (buildColors env.rng df)
        (df.filter (fun r => r.frame == (fIdx : Int))) := by
  intro e he
  unfold visualize_tracking_results at he
  rw [hlog] at he
  simp only [] at he
  cases hdir : env.listdir with
  | none =>
      rw [hdir] at he
      exact absurd he (List.not_mem_nil e)
  | some entries =>
      rw [hdir] at he
      simp only [] at he
      cases hs : sortedJpgs entries with
      | nil =>
          rw [hs] at he
          exact absurd he (List.not_mem_nil e)
      | cons f0 rest =>
          rw [hs] at he
          simp only [] at he
          cases h0 : env.imread f0 with
          | none =>
              rw [h0] at he
              exact absurd he (List.not_mem_nil e)
          | some img0 =>
              rw [h0] at he
              exact processFramesAux_snd env.imread df _ (f0 :: rest) 1 e he

/-! ### Sample data for concrete witnesses -/

/-- A sample log row: `1,3,100,200,50,80,0.9,0,0,0`. -/
def sampleRecord : TrackRecord := ⟨1, 3, 100, 200, 50, 80, 9 / 10, 0, 0, 0⟩

/-- A sample decoded 640×480 bitmap. -/
def sampleImage : Image := ⟨640, 480, 0⟩

/-- A fully healthy environment: one row, one decodable image. -/
def sampleEnv : Env where
  readLog := .ok [sampleRecord]
  listdir := some ["1.jpg"]
  imread := fun _ => some sampleImage
  rng := fun n => n

/-! ### Claims -/

/-- C1: for every valid log, every record with `frame = f` whose image at
1-based sorted position `f = j + 1` exists and decodes is drawn on that
output frame as a rectangle outline from `(bbLeft, bbTop)` to
`(bbLeft + bbWidth, bbTop + bbHeight)` in the id's assigned color with
2-pixel stroke, plus a text label `"ID: <id>"` anchored 5 pixels above the
rectangle's top edge in the same color. -/
theorem c1_box_and_label_drawn (env : Env) (df : List TrackRecord)
    (entries : List String) (f0 : String) (rest : List String) (img0 : Image)
    (j : Nat) (file : String) (img : Image) (r : TrackRecord)
    (hlog : env.readLog = .ok df) (hdir : env.listdir = some entries)
    (hsort : sortedJpgs entries = f0 :: rest) (h0 : env.imread f0 = some img0)
    (hfile : (f0 :: rest)[j]? = some file) (himg : env.imread file = some img)
    (hr : r ∈ df) (hfr : r.frame = ((j + 1 : Nat) : Int)) :
    ∃ cmds, (img, cmds) ∈ (visualize_tracking_results env).written ∧
      DrawCmd.rectangle (r.bb_left, r.bb_top)
          (r.bb_left + r.bb_width, r.bb_top + r.bb_height)
          (colorsGet (buildColors env.rng df) r.id) 2 ∈ cmds ∧
      DrawCmd.putText ("ID: " ++ toString r.id) (r.bb_left, r.bb_top - 5) (7 / 10)
          (colorsGet (buildColors env.rng df) r.id) 2 ∈ cmds := by
  rw [run_completed env df entries f0 rest img0 hlog hdir hsort h0]
  refine ⟨drawDetections (buildColors env.rng df)
      (df.filter (fun r2 => r2.frame == ((1 + j : Nat) : Int))), ?_, ?_, ?_⟩
  · exact processFramesAux_mem env.imread df _ (f0 :: rest) 1 j file img hfile himg
  · unfold drawDetections
    refine List.mem_flatMap.mpr ⟨r, List.mem_filter.mpr ⟨hr, ?_⟩, ?_⟩
    · simp only [beq_iff_eq, hfr]
      push_cast
      omega
    · simp
  · unfold drawDetections
    refine List.mem_flatMap.mpr ⟨r, List.mem_filter.mpr ⟨hr, ?_⟩, ?_⟩
    · simp only [beq_iff_eq, hfr]
      push_cast
      omega
    · simp

/-- C1 witness: the sample environment draws the box `(100,200)–(150,280)`
and label `"ID: 3"` for the sample record on frame 1. -/
theorem c1_box_and_label_drawn_witness :
    ∃ cmds, (sampleImage, cmds) ∈ (visualize_tracking_results sampleEnv).written ∧
      DrawCmd.rectangle (sampleRecord.bb_left, sampleRecord.bb_top)
          (sampleRecord.bb_left + sampleRecord.bb_width,
           sampleRecord.bb_top + sampleRecord.bb_height)
          (colorsGet (buildColors sampleEnv.rng [sampleRecord]) sampleRecord.id) 2 ∈ cmds ∧
      DrawCmd.putText ("ID: " ++ toString sampleRecord.id)
          (sampleRecord.bb_left, sampleRecord.bb_top - 5) (7 / 10)
          (colorsGet (buildColors sampleEnv.rng [sampleRecord]) sampleRecord.id) 2 ∈ cmds :=
  c1_box_and_label_drawn sampleEnv [sampleRecord] ["1.jpg"] "1.jpg" [] sampleImage
    0 "1.jpg" sampleImage sampleRecord rfl rfl (by decide) rfl (by decide) rfl
    (by simp) (by decide)

/-- C2: the frame sequence is the `.jpg` entries sorted ascending by the
integer value of the filename stem; the file at 0-based sorted position `j`
is rendered with frame index `j + 1` and matched against the records with
`frame = j + 1`; and `1.jpg, 2.jpg, 10.jpg` sort numerically, not
lexicographically. -/
theorem c2_numeric_frame_order (entries : List String)
    (hparse : ∀ f ∈ entries.filter (fun f => strEndsWith f ".jpg"),
      (strToInt (splitextRoot f)).isSome = true) :
    (sortedJpgs entries).Perm (entries.filter (fun f => strEndsWith f ".jpg"))
    ∧ (sortedJpgs entries).Pairwise (fun a b => stemKey a ≤ stemKey b)
    ∧ (∀ (imread : String → Option Image) (df : List TrackRecord)
        (colors : List (Int × Color)) (j : Nat) (file : String) (img : Image),
        (sortedJpgs entries)[j]? = some file → imread file = some img →
        (img, drawDetections colors (df.filter (fun r => r.frame == ((1 + j : Nat) : Int)))) ∈
          processFrames imread df colors (sortedJpgs entries))
    ∧ sortedJpgs ["10.jpg", "1.jpg", "2.jpg"] = ["1.jpg", "2.jpg", "10.jpg"] := by
  refine ⟨?_, ?_, ?_, by decide⟩
  · exact List.perm_insertionSort _ _
  · haveI : IsTotal String (fun a b => stemKey a ≤ stemKey b) := ⟨fun a b => le_total _ _⟩
    haveI : IsTrans String (fun a b => stemKey a ≤ stemKey b) := ⟨fun a b c => le_trans⟩
    exact List.sorted_insertionSort _ _
  · intro imread df colors j file img hfile himg
    exact processFramesAux_mem imread df colors (sortedJpgs entries) 1 j file img hfile himg

/-- C2 witness: the directory listing `10.jpg, 1.jpg, 2.jpg` has parseable
stems and satisfies the ordering and matching contract. -/
theorem c2_numeric_frame_order_witness :
    (∀ f ∈ (["10.jpg", "1.jpg", "2.jpg"] : List String).filter
        (fun f => strEndsWith f ".jpg"), (strToInt (splitextRoot f)).isSome = true)
    ∧ ((sortedJpgs ["10.jpg", "1.jpg", "2.jpg"]).Perm
        ((["10.jpg", "1.jpg", "2.jpg"] : List String).filter (fun f => strEndsWith f ".jpg"))
    ∧ (sortedJpgs ["10.jpg", "1.jpg", "2.jpg"]).Pairwise (fun a b => stemKey a ≤ stemKey b)
    ∧ (∀ (imread : String → Option Image) (df : List TrackRecord)
        (colors : List (Int × Color)) (j : Nat) (file : String) (img : Image),
        (sortedJpgs ["10.jpg", "1.jpg", "2.jpg"])[j]? = some file → imread file = some img →
        (img, drawDetections colors (df.filter (fun r => r.frame == ((1 + j : Nat) : Int)))) ∈
          processFrames imread df colors (sortedJpgs ["10.jpg", "1.jpg", "2.jpg"]))
    ∧ sortedJpgs ["10.jpg", "1.jpg", "2.jpg"] = ["1.jpg", "2.jpg", "10.jpg"]) :=
  ⟨by decide, c2_numeric_frame_order ["10.jpg", "1.jpg", "2.jpg"] (by decide)⟩

/-- C3: the color table is built once from the full record set and used for
all frames, so two records with the same id are always drawn in the same
color within one run: every written frame's overlay is rendered against the
one table `buildColors env.rng df`, under which equal ids get equal colors. -/
theorem c3_color_stability (env : Env) (df : List TrackRecord)
    (hlog : env.readLog = .ok df) :
    (∀ r1 r2 : TrackRecord, r1 ∈ df → r2 ∈ df → r1.id = r2.id →
      colorsGet (buildColors env.rng df) r1.id = colorsGet (buildColors env.rng df) r2.id)
    ∧ ∀ e ∈ (visualize_tracking_results env).written,
        ∃ fIdx : Nat, e.2 = drawDetections (buildColors env.rng df)
          (df.filter (fun r => r.frame == (fIdx : Int))) := by
  refine ⟨fun r1 r2 h1 h2 hid => by rw [hid], run_written_shape env df hlog⟩

/-- C3 witness: instantiated on the sample environment. -/
theorem c3_color_stability_witness :
    sampleEnv.readLog = .ok [sampleRecord]
    ∧ ((∀ r1 r2 : TrackRecord, r1 ∈ [sampleRecord] → r2 ∈ [sampleRecord] → r1.id = r2.id →
        colorsGet (buildColors sampleEnv.rng [sampleRecord]) r1.id
          = colorsGet (buildColors sampleEnv.rng [sampleRecord]) r2.id)
    ∧ ∀ e ∈ (visualize_tracking_results sampleEnv).written,
        ∃ fIdx : Nat, e.2 = drawDetections (buildColors sampleEnv.rng [sampleRecord])
          (([sampleRecord] : List TrackRecord).filter (fun r => r.frame == (fIdx : Int)))) :=
  ⟨rfl, c3_color_stability sampleEnv [sampleRecord] rfl⟩

/-- C4: the completion status after `close()` is `Success` iff the output
file exists with non-zero size, `EmptyOutput` iff it exists with zero bytes,
and `MissingOutput` iff it is absent — exhaustive and mutually exclusive. -/
theorem c4_completion_status_exhaustive (outputExists : Bool) (fileSize : Nat) :
    (completionStatus outputExists fileSize = .success
      ↔ outputExists = true ∧ 0 < fileSize)
    ∧ (completionStatus outputExists fileSize = .emptyOutput
      ↔ outputExists = true ∧ fileSize = 0)
    ∧ (completionStatus outputExists fileSize = .missingOutput
      ↔ outputExists = false) := by
  cases outputExists <;> cases fileSize <;> simp [completionStatus]

/-- C5: an existing log with zero parseable rows (pandas raises
`EmptyDataError`) makes the run fail with the empty-input error before any
rendering: no output stream is opened and no frame is written. -/
theorem c5_empty_input_aborts (env : Env) (h : env.readLog = .error .emptyData) :
    (visualize_tracking_results env).outcome = .emptyInput
    ∧ (visualize_tracking_results env).outputOpened = false
    ∧ (visualize_tracking_results env).written = [] := by
  unfold visualize_tracking_results
  rw [h]
  exact ⟨rfl, rfl, rfl⟩

/-- An environment whose log parses to zero rows. -/
def c5Env : Env where
  readLog := .error .emptyData
  listdir := some ["1.jpg"]
  imread := fun _ => some sampleImage
  rng := fun n => n

/-- C5 witness: the zero-row environment aborts with the empty-input
outcome and writes nothing. -/
theorem c5_empty_input_aborts_witness :
    c5Env.readLog = .error .emptyData
    ∧ ((visualize_tracking_results c5Env).outcome = .emptyInput
    ∧ (visualize_tracking_results c5Env).outputOpened = false
    ∧ (visualize_tracking_results c5Env).written = []) :=
  ⟨rfl, c5_empty_input_aborts c5Env rfl⟩

/-- C6: in a run that reaches rendering, every image after the first that
fails to decode is skipped: the written images are exactly the successfully
decoded ones in order (no substitute or padding frame), the run completes,
and the output frame count is the input image count minus the number of
failed decodes. -/
theorem c6_skip_reduces_count (env : Env) (df : List TrackRecord)
    (entries : List String) (f0 : String) (rest : List String) (img0 : Image)
    (hlog : env.readLog = .ok df) (hdir : env.listdir = some entries)
    (hsort : sortedJpgs entries = f0 :: rest) (h0 : env.imread f0 = some img0) :
    (visualize_tracking_results env).outcome = .completed
    ∧ (visualize_tracking_results env).written.map Prod.fst
        = (f0 :: rest).filterMap env.imread
    ∧ (visualize_tracking_results env).written.length
        + (f0 :: rest).countP (fun f => (env.imread f).isNone)
        = (f0 :: rest).length := by
  rw [run_completed env df entries f0 rest img0 hlog hdir hsort h0]
  have hmap := processFramesAux_map_fst env.imread df (buildColors env.rng df) (f0 :: rest) 1
  have hlen : (processFrames env.imread df (buildColors env.rng df) (f0 :: rest)).length
      = ((f0 :: rest).filterMap env.imread).length := by
    rw [← hmap, List.length_map]
    rfl
  have hcount := filterMap_length_add_countP env.imread (f0 :: rest)
  refine ⟨rfl, hmap, ?_⟩
  show (processFrames env.imread df (buildColors env.rng df) (f0 :: rest)).length
      + (f0 :: rest).countP (fun f => (env.imread f).isNone) = (f0 :: rest).length
  omega

/-- An environment whose second image is corrupt. -/
def c6Env : Env where
  readLog := .ok [sampleRecord]
  listdir := some ["1.jpg", "2.jpg"]
  imread := fun f => if f = "2.jpg" then none else some sampleImage
  rng := fun n => n

/-- C6 witness: with images `1.jpg, 2.jpg` and `2.jpg` corrupt, the run
completes and writes exactly one frame out of two input images. -/
theorem c6_skip_reduces_count_witness :
    c6Env.readLog = .ok [sampleRecord]
    ∧ sortedJpgs ["1.jpg", "2.jpg"] = "1.jpg" :: ["2.jpg"]
    ∧ c6Env.imread "1.jpg" = some sampleImage
    ∧ ((visualize_tracking_results c6Env).outcome = .completed
    ∧ (visualize_tracking_results c6Env).written.map Prod.fst
        = ("1.jpg" :: ["2.jpg"]).filterMap c6Env.imread
    ∧ (visualize_tracking_results c6Env).written.length
        + ("1.jpg" :: ["2.jpg"]).countP (fun f => (c6Env.imread f).isNone)
        = ("1.jpg" :: ["2.jpg"]).length) :=
  ⟨rfl, by decide, by decide,
    c6_skip_reduces_count c6Env [sampleRecord] ["1.jpg", "2.jpg"] "1.jpg" ["2.jpg"]
      sampleImage rfl rfl (by decide) (by decide)⟩

/-- C7 counterexample: the claim says every value in `0..255` is a possible
channel value, but `np.random.randint(0, 255)` has an exclusive upper
bound: no random stream makes an assigned channel equal to 255. -/
theorem c7_channel_255_unreachable :
    ¬ ∃ rng : Nat → Nat,
      (colorsGet (buildColors rng [⟨1, 7, 0, 0, 0, 0, 0, 0, 0, 0⟩]) 7).1 = 255 := by
  rintro ⟨rng, h⟩
  have hle := npRandint_le (rng 0)
  have heq : (colorsGet (buildColors rng [⟨1, 7, 0, 0, 0, 0, 0, 0, 0, 0⟩]) 7).1
      = npRandint 0 255 (rng 0) := rfl
  rw [heq] at h
  omega

/-- C7 (amended): each assigned color has three independently drawn
channels ranging over the inclusive interval `0..254` — every channel of
every table entry lies in `[0, 254]`, and every value in `0..254` is
attainable by a suitable random stream. -/
theorem c7_channel_range_0_254 (rng : Nat → Nat) (df : List TrackRecord)
    (tid : Int) (c : Color) (hmem : (tid, c) ∈ buildColors rng df) :
    ((0 ≤ c.1 ∧ c.1 ≤ 254) ∧ (0 ≤ c.2.1 ∧ c.2.1 ≤ 254) ∧ (0 ≤ c.2.2 ∧ c.2.2 ≤ 254))
    ∧ ∀ v : Int, 0 ≤ v → v ≤ 254 → ∃ rng2 : Nat → Nat,
        colorsGet (buildColors rng2 [⟨1, tid, 0, 0, 0, 0, 0, 0, 0, 0⟩]) tid = (v, v, v) := by
  constructor
  · exact buildColorsAux_channel_bounds rng tid c (uniqueIds df) 0 hmem
  · intro v h0 h1
    refine ⟨fun _ => v.toNat, ?_⟩
    have heq : colorsGet (buildColors (fun _ => v.toNat) [⟨1, tid, 0, 0, 0, 0, 0, 0, 0, 0⟩]) tid
        = (npRandint 0 255 v.toNat, npRandint 0 255 v.toNat, npRandint 0 255 v.toNat) := by
      simp [colorsGet, buildColors, uniqueIds, uniqueAux, buildColorsAux, List.lookup]
    rw [heq, npRandint_eq_self v h0 h1]

/-- C7 witness: the identity stream assigns id 3 the color `(0, 1, 2)`,
whose channels are all in `[0, 254]`, and 254 itself is attainable. -/
theorem c7_channel_range_0_254_witness :
    ((3 : Int), ((0 : Int), (1 : Int), (2 : Int))) ∈ buildColors (fun n => n) [sampleRecord]
    ∧ (((0 ≤ (0 : Int) ∧ (0 : Int) ≤ 254) ∧ (0 ≤ (1 : Int) ∧ (1 : Int) ≤ 254)
        ∧ (0 ≤ (2 : Int) ∧ (2 : Int) ≤ 254))
    ∧ ∀ v : Int, 0 ≤ v → v ≤ 254 → ∃ rng2 : Nat → Nat,
        colorsGet (buildColors rng2 [⟨1, 3, 0, 0, 0, 0, 0, 0, 0, 0⟩]) 3 = (v, v, v)) :=
  ⟨by decide, c7_channel_range_0_254 (fun n => n) [sampleRecord] 3 (0, 1, 2) (by decide)⟩

/-- An environment whose first sorted image is corrupt while the second
decodes at 800×600. -/
def c8Env : Env where
  readLog := .ok [sampleRecord]
  listdir := some ["1.jpg", "2.jpg"]
  imread := fun f => if f = "2.jpg" then some ⟨800, 600, 0⟩ else none
  rng := fun n => n

/-- C8 counterexample: the claim says that when the first sorted image
fails to decode, the dimensions come from the earliest later decodable
image instead of the run aborting; but with `1.jpg` corrupt and `2.jpg`
decodable at 800×600 the run aborts: no output stream is opened and no
frame size is ever fixed. -/
theorem c8_counterexample :
    c8Env.imread "2.jpg" = some ⟨800, 600, 0⟩
    ∧ (visualize_tracking_results c8Env).outcome = .firstImageUnreadable
    ∧ (visualize_tracking_results c8Env).outputOpened = false
    ∧ (visualize_tracking_results c8Env).frameSize ≠ some (800, 600) :=
  ⟨by decide, by decide, by decide, by decide⟩

/-- C8 (amended): the output dimensions are taken from the first image in
sorted order when it decodes; if that first image fails to decode the run
aborts before the output stream is opened, writing nothing. -/
theorem c8_first_image_dimensions (env : Env) (df : List TrackRecord)
    (entries : List String) (f0 : String) (rest : List String)
    (hlog : env.readLog = .ok df) (hdir : env.listdir = some entries)
    (hsort : sortedJpgs entries = f0 :: rest) :
    (∀ img0 : Image, env.imread f0 = some img0 →
      (visualize_tracking_results env).frameSize = some (img0.width, img0.height)
      ∧ (visualize_tracking_results env).outputOpened = true)
    ∧ (env.imread f0 = none →
      (visualize_tracking_results env).outcome = .firstImageUnreadable
      ∧ (visualize_tracking_results env).outputOpened = false
      ∧ (visualize_tracking_results env).written = []) := by
  constructor
  · intro img0 h0
    rw [run_completed env df entries f0 rest img0 hlog hdir hsort h0]
    exact ⟨rfl, rfl⟩
  · intro h0
    unfold visualize_tracking_results
    rw [hlog]
    simp only []
    rw [hdir]
    simp only []
    rw [hsort]
    simp only []
    rw [h0]
    exact ⟨rfl, rfl, rfl⟩

/-- C8 witness: the amended statement applied to the environment where the
first image is corrupt and the second decodes. -/
theorem c8_first_image_dimensions_witness :
    c8Env.readLog = .ok [sampleRecord]
    ∧ sortedJpgs ["1.jpg", "2.jpg"] = "1.jpg" :: ["2.jpg"]
    ∧ ((∀ img0 : Image, c8Env.imread "1.jpg" = some img0 →
      (visualize_tracking_results c8Env).frameSize = some (img0.width, img0.height)
      ∧ (visualize_tracking_results c8Env).outputOpened = true)
    ∧ (c8Env.imread "1.jpg" = none →
      (visualize_tracking_results c8Env).outcome = .firstImageUnreadable
      ∧ (visualize_tracking_results c8Env).outputOpened = false
      ∧ (visualize_tracking_results c8Env).written = [])) :=
  ⟨rfl, by decide,
    c8_first_image_dimensions c8Env [sampleRecord] ["1.jpg", "2.jpg"] "1.jpg" ["2.jpg"]
      rfl rfl (by decide)⟩

/-- C9: when the log loads but the image directory contains no `.jpg`
entries, the run reports the fatal no-images error before the output stream
is opened: nothing is written and no output file is created. -/
theorem c9_no_jpg_aborts (env : Env) (df : List TrackRecord) (entries : List String)
    (hlog : env.readLog = .ok df) (hdir : env.listdir = some entries)
    (hnone : entries.filter (fun f => strEndsWith f ".jpg") = []) :
    (visualize_tracking_results env).outcome = .noJpgImages
    ∧ (visualize_tracking_results env).outputOpened = false
    ∧ (visualize_tracking_results env).written = [] := by
  have hs : sortedJpgs entries = [] := by
    unfold sortedJpgs sortByKey
    rw [hnone]
    rfl
  unfold visualize_tracking_results
  rw [hlog]
  simp only []
  rw [hdir]
  simp only []
  rw [hs]
  exact ⟨rfl, rfl, rfl⟩

/-- An environment whose image directory holds no `.jpg` file. -/
def c9Env : Env where
  readLog := .ok [sampleRecord]
  listdir := some ["a.png", "notes.txt"]
  imread := fun _ => some sampleImage
  rng := fun n => n

/-- C9 witness: a directory with only `a.png` and `notes.txt` aborts with
the no-images outcome and writes nothing. -/
theorem c9_no_jpg_aborts_witness :
    c9Env.readLog = .ok [sampleRecord]
    ∧ (["a.png", "notes.txt"] : List String).filter (fun f => strEndsWith f ".jpg") = []
    ∧ ((visualize_tracking_results c9Env).outcome = .noJpgImages
    ∧ (visualize_tracking_results c9Env).outputOpened = false
    ∧ (visualize_tracking_results c9Env).written = []) :=
  ⟨rfl, by decide,
    c9_no_jpg_aborts c9Env [sampleRecord] ["a.png", "notes.txt"] rfl rfl (by decide)⟩

/-- C10: every record of the loaded log has its id in the color table built
from the full record set, so the rendered color is the table entry and the
fixed green fallback `(0, 255, 0)` is unreachable for records coming from
the log. -/
theorem c10_fallback_unreachable (rng : Nat → Nat) (df : List TrackRecord)
    (r : TrackRecord) (hr : r ∈ df) :
    ∃ c : Color, (buildColors rng df).lookup r.id = some c
      ∧ colorsGet (buildColors rng df) r.id = c
      ∧ colorsGet (buildColors rng df) r.id ≠ (0, 255, 0) := by
  have hid := mem_uniqueIds df r hr
  rcases buildColorsAux_lookup rng r.id (uniqueIds df) 0 hid with ⟨c, hc, hmem⟩
  have hbounds := buildColorsAux_channel_bounds rng r.id c (uniqueIds df) 0 hmem
  have hget : colorsGet (buildColors rng df) r.id = c := by
    unfold colorsGet
    rw [show (buildColors rng df).lookup r.id = some c from hc]
  refine ⟨c, hc, hget, ?_⟩
  rw [hget]
  intro habs
  rw [habs] at hbounds
  norm_num at hbounds

/-- C10 witness: the sample record's id 3 is a key of the table built by
the identity stream, and its drawn color is not the green fallback. -/
theorem c10_fallback_unreachable_witness :
    sampleRecord ∈ [sampleRecord]
    ∧ ∃ c : Color, (buildColors (fun n => n) [sampleRecord]).lookup sampleRecord.id = some c
      ∧ colorsGet (buildColors (fun n => n) [sampleRecord]) sampleRecord.id = c
      ∧ colorsGet (buildColors (fun n => n) [sampleRecord]) sampleRecord.id ≠ (0, 255, 0) :=
  ⟨by simp, c10_fallback_unreachable (fun n => n) [sampleRecord] sampleRecord (by simp)⟩

end TrackTrack
